import Mathlib

/-!
Verification of `.github/scripts/update_stats.py`: a script that fetches two
GitHub statistics (total stars, lifetime commit contributions) over the
GraphQL API and substitutes them into a README template.

The embedding models:
* timezone-aware UTC datetimes as a record of calendar fields with the
  lexicographic order Python uses to compare aware datetimes;
* the year-windowed commit-aggregation loop of `fetch_commit_total`
  (lines 90-107) with the per-window API response abstracted as a
  `count` function;
* the template renderer `render_template` (lines 148-157) together with a
  character-level matcher for the regex
  `PLACEHOLDER_PATTERN = \x7b\x7b\s*([A-Z0-9_]+)\s*\x7d\x7d`, with the
  Unicode whitespace class Python's `\s` matches on str patterns;
* the GraphQL client error handling of `GitHubGraphQLClient.execute`
  (lines 29-50) over an abstract transport result and a small JSON model;
* the `main` control flow (lines 160-189) as a trace-producing function over
  oracles for the network, the filesystem, the environment and the
  `datetime.fromisoformat` library routine.
-/

/-- A timezone-aware UTC datetime, as produced by `datetime(...)`,
`datetime.now(timezone.utc)` and `datetime.fromisoformat` in the script.
Python compares aware datetimes of the same zone lexicographically by
calendar field. -/
structure DT where
  year : Nat
  month : Nat
  day : Nat
  hour : Nat
  minute : Nat
  second : Nat
  micro : Nat
deriving DecidableEq, Repr

/-- Python `a < b` on aware datetimes in the same timezone: lexicographic
comparison of the calendar fields. -/
def DT.lt (a b : DT) : Prop :=
  a.year < b.year ∨ (a.year = b.year ∧
  (a.month < b.month ∨ (a.month = b.month ∧
  (a.day < b.day ∨ (a.day = b.day ∧
  (a.hour < b.hour ∨ (a.hour = b.hour ∧
  (a.minute < b.minute ∨ (a.minute = b.minute ∧
  (a.second < b.second ∨ (a.second = b.second ∧
  a.micro < b.micro)))))))))))

instance (a b : DT) : Decidable (DT.lt a b) := by
  unfold DT.lt; infer_instance

/-- `datetime(y, 1, 1, tzinfo=timezone.utc)`: the year boundary used by the
windowing loop (line 92). -/
def jan1 (y : Nat) : DT := ⟨y, 1, 1, 0, 0, 0, 0⟩

/-- `min` of two datetimes under the Python order, used to state the spec's
`end = min(start + 1 year, now)`. -/
def dtMin (a b : DT) : DT := if DT.lt a b then a else b

theorem DT.lt_irrefl (a : DT) : ¬ DT.lt a a := by
  simp [DT.lt]

theorem DT.lt_asymm {a b : DT} (h : DT.lt a b) : ¬ DT.lt b a := by
  unfold DT.lt at *
  omega

theorem DT.eq_of_not_lt {a b : DT} (h1 : ¬ DT.lt a b) (h2 : ¬ DT.lt b a) :
    a = b := by
  unfold DT.lt at *
  cases a; cases b
  simp only [DT.mk.injEq]
  dsimp at h1 h2
  omega

theorem DT.year_le_of_lt {a b : DT} (h : DT.lt a b) : a.year ≤ b.year := by
  unfold DT.lt at h
  omega

theorem DT.year_le_of_not_lt_jan1 {n : DT} {y : Nat}
    (h : ¬ DT.lt n (jan1 y)) : y ≤ n.year := by
  unfold DT.lt jan1 at h
  dsimp at h
  omega

theorem DT.lt_jan1_succ (a : DT) : DT.lt a (jan1 (a.year + 1)) := by
  unfold DT.lt jan1
  dsimp only
  left
  omega

/-- The window list generated by the loop of `fetch_commit_total`
(lines 90-107), with explicit fuel.  Each iteration under the guard
`period_start < now` produces the window
`(period_start, period_end)` with
`period_end = datetime(period_start.year + 1, 1, 1)` capped at `now`
(lines 92-94), and continues from `period_end` (line 105). -/
def commitWindowsF (now : DT) : Nat → DT → List (DT × DT)
  | 0, _ => []
  | f + 1, start =>
    if DT.lt start now then
      let e0 := jan1 (start.year + 1)
      let e := if DT.lt now e0 then now else e0
      (start, e) :: commitWindowsF now f e
    else []

/-- The windows the loop of `fetch_commit_total` traverses; the fuel
`now.year + 1 - start.year` is proved sufficient below. -/
def commitWindows (now start : DT) : List (DT × DT) :=
  commitWindowsF now (now.year + 1 - start.year) start

/-- The accumulation of `total_commits` in `fetch_commit_total`
(lines 78, 101-103), with the per-window API response abstracted as
`count from to` and explicit fuel. -/
def commitTotalF (count : DT → DT → Int) (now : DT) : Nat → DT → Int → Int
  | 0, _, total => total
  | f + 1, start, total =>
    if DT.lt start now then
      let e0 := jan1 (start.year + 1)
      let e := if DT.lt now e0 then now else e0
      commitTotalF count now f e (total + count start e)
    else total

/-- `fetch_commit_total` restricted to its pure windowing and summation
logic: `created_at` and `now` are the datetimes of lines 76-77 and `count`
models `collection["totalCommitContributions"]` per window. -/
def fetch_commit_total (count : DT → DT → Int) (created_at now : DT) : Int :=
  commitTotalF count now (now.year + 1 - created_at.year) created_at 0

/-- The consecutive-window property: each window starts where the previous
one ended, the first starting at the given point. -/
def chainFrom : DT → List (DT × DT) → Prop
  | _, [] => True
  | s, w :: ws => w.1 = s ∧ chainFrom w.2 ws

instance : ∀ (s : DT) (ws : List (DT × DT)), Decidable (chainFrom s ws)
  | _, [] => .isTrue trivial
  | s, w :: ws =>
    match decEq w.1 s, instDecidableChainFrom w.2 ws with
    | .isTrue h1, .isTrue h2 => .isTrue ⟨h1, h2⟩
    | .isFalse h1, _ => .isFalse fun h => h1 h.1
    | _, .isFalse h2 => .isFalse fun h => h2 h.2

theorem commitWindowsF_self (now : DT) (f : Nat) :
    commitWindowsF now f now = [] := by
  cases f with
  | zero => rfl
  | succ f => simp [commitWindowsF, DT.lt_irrefl]

theorem commitWindowsF_chain (now : DT) (f : Nat) (s : DT) :
    chainFrom s (commitWindowsF now f s) := by
  induction f generalizing s with
  | zero => trivial
  | succ f ih =>
    unfold commitWindowsF
    split
    · exact ⟨rfl, ih _⟩
    · trivial

theorem commitWindowsF_ends (now : DT) (f : Nat) (s : DT) :
    ∀ w ∈ commitWindowsF now f s,
      w.2 = dtMin (jan1 (w.1.year + 1)) now ∧ DT.lt w.1 w.2 ∧
      DT.lt w.1 now := by
  induction f generalizing s with
  | zero => intro w hw; simp [commitWindowsF] at hw
  | succ f ih =>
    intro w hw
    unfold commitWindowsF at hw
    split at hw
    · rename_i hlt
      simp only [List.mem_cons] at hw
      rcases hw with rfl | hw
      · refine ⟨?_, ?_, hlt⟩
        · dsimp only [dtMin]
          by_cases h1 : DT.lt now (jan1 (s.year + 1))
          · rw [if_pos h1, if_neg (DT.lt_asymm h1)]
          · rw [if_neg h1]
            by_cases h2 : DT.lt (jan1 (s.year + 1)) now
            · rw [if_pos h2]
            · rw [if_neg h2]
              exact (DT.eq_of_not_lt h1 h2).symm
        · dsimp only
          split
          · exact hlt
          · exact DT.lt_jan1_succ s
      · exact ih _ w hw
    · simp at hw

theorem commitWindowsF_length (now : DT) (f : Nat) (s : DT) :
    (commitWindowsF now f s).length ≤ now.year + 1 - s.year := by
  induction f generalizing s with
  | zero => simp [commitWindowsF]
  | succ f ih =>
    unfold commitWindowsF
    split
    · rename_i hlt
      have hy := DT.year_le_of_lt hlt
      dsimp only
      split
      · rename_i hnow
        rw [commitWindowsF_self]
        simp
        omega
      · rename_i hnow
        have := DT.year_le_of_not_lt_jan1 hnow
        have hrec := ih (jan1 (s.year + 1))
        simp only [List.length_cons]
        simp only [jan1] at hrec ⊢
        omega
    · simp

theorem commitWindowsF_last (now : DT) (f : Nat) (s : DT)
    (hf : now.year + 1 - s.year ≤ f) (hs : DT.lt s now) :
    ∃ p, (commitWindowsF now f s).getLast? = some (p, now) := by
  induction f generalizing s with
  | zero =>
    have := DT.year_le_of_lt hs
    omega
  | succ f ih =>
    unfold commitWindowsF
    rw [if_pos hs]
    dsimp only
    split
    · rename_i hnow
      rw [commitWindowsF_self]
      exact ⟨s, rfl⟩
    · rename_i hnow
      have hy1 := DT.year_le_of_not_lt_jan1 hnow
      by_cases he : DT.lt (jan1 (s.year + 1)) now
      · have hrec := ih (jan1 (s.year + 1))
          (by simp only [jan1]; omega) he
        obtain ⟨p, hp⟩ := hrec
        refine ⟨p, ?_⟩
        rcases hnil : commitWindowsF now f (jan1 (s.year + 1)) with _ | ⟨w, ws⟩
        · rw [hnil] at hp; simp at hp
        · rw [hnil] at hp
          rw [List.getLast?_cons_cons]
          exact hp
      · have heq : jan1 (s.year + 1) = now := DT.eq_of_not_lt he hnow
        rw [heq, commitWindowsF_self]
        exact ⟨s, by simp⟩

theorem commitTotalF_sum (count : DT → DT → Int) (now : DT) (f : Nat)
    (s : DT) (total : Int) :
    commitTotalF count now f s total =
      total + ((commitWindowsF now f s).map (fun w => count w.1 w.2)).sum := by
  induction f generalizing s total with
  | zero => simp [commitTotalF, commitWindowsF]
  | succ f ih =>
    unfold commitTotalF commitWindowsF
    split
    · dsimp only
      rw [ih]
      simp
      ring
    · simp

/-- Claim C1: for creation timestamp `D` and current time `N` with `D < N`,
the loop of `fetch_commit_total` generates consecutive windows that
partition `[D, N]` exactly: the window list is nonempty, the first window
starts at `D` and each subsequent window starts at the previous window's
end (`chainFrom D`), each window ends at
`min(datetime(start.year + 1, 1, 1), N)` and is nonempty, the last window
ends at `N`, and the computed commit total is the sum of the per-window
counts over exactly these windows. -/
theorem commit_windows_partition (count : DT → DT → Int) (D N : DT)
    (h : DT.lt D N) :
    commitWindows N D ≠ []
    ∧ chainFrom D (commitWindows N D)
    ∧ (∀ w ∈ commitWindows N D,
        w.2 = dtMin (jan1 (w.1.year + 1)) N ∧ DT.lt w.1 w.2)
    ∧ (∃ p, (commitWindows N D).getLast? = some (p, N))
    ∧ fetch_commit_total count D N =
        ((commitWindows N D).map (fun w => count w.1 w.2)).sum := by
  have hy := DT.year_le_of_lt h
  refine ⟨?_, ?_, ?_, ?_, ?_⟩
  · unfold commitWindows
    rcases hf : N.year + 1 - D.year with _ | f
    · omega
    · simp only [commitWindowsF]
      rw [if_pos h]
      simp
  · exact commitWindowsF_chain N _ D
  · intro w hw
    exact ⟨(commitWindowsF_ends N _ D w hw).1,
      (commitWindowsF_ends N _ D w hw).2.1⟩
  · exact commitWindowsF_last N _ D (le_refl _) h
  · unfold fetch_commit_total commitWindows
    rw [commitTotalF_sum]
    simp

/-- Witness for C1 at a concrete input: creation date 2020-12-01, now
2021-02-01, with an arbitrary concrete count function. -/
theorem commit_windows_partition_witness :
    DT.lt ⟨2020, 12, 1, 0, 0, 0, 0⟩ ⟨2021, 2, 1, 0, 0, 0, 0⟩
    ∧ (commitWindows ⟨2021, 2, 1, 0, 0, 0, 0⟩ ⟨2020, 12, 1, 0, 0, 0, 0⟩ ≠ []
    ∧ chainFrom ⟨2020, 12, 1, 0, 0, 0, 0⟩
        (commitWindows ⟨2021, 2, 1, 0, 0, 0, 0⟩ ⟨2020, 12, 1, 0, 0, 0, 0⟩)
    ∧ (∀ w ∈ commitWindows ⟨2021, 2, 1, 0, 0, 0, 0⟩ ⟨2020, 12, 1, 0, 0, 0, 0⟩,
        w.2 = dtMin (jan1 (w.1.year + 1)) ⟨2021, 2, 1, 0, 0, 0, 0⟩ ∧ DT.lt w.1 w.2)
    ∧ (∃ p, (commitWindows ⟨2021, 2, 1, 0, 0, 0, 0⟩
        ⟨2020, 12, 1, 0, 0, 0, 0⟩).getLast? = some (p, ⟨2021, 2, 1, 0, 0, 0, 0⟩))
    ∧ fetch_commit_total (fun a b => (a.month : Int) + b.month)
        ⟨2020, 12, 1, 0, 0, 0, 0⟩ ⟨2021, 2, 1, 0, 0, 0, 0⟩ =
        ((commitWindows ⟨2021, 2, 1, 0, 0, 0, 0⟩ ⟨2020, 12, 1, 0, 0, 0, 0⟩).map
          (fun w => (w.1.month : Int) + w.2.month)).sum) :=
  ⟨by decide,
   commit_windows_partition (fun a b => (a.month : Int) + b.month)
     ⟨2020, 12, 1, 0, 0, 0, 0⟩ ⟨2021, 2, 1, 0, 0, 0, 0⟩ (by decide)⟩

/-- `addYears d k`: the datetime `k` calendar years after `d`, used to state
the account age in whole years. -/
def addYears (d : DT) (k : Nat) : DT := { d with year := d.year + k }

/-- The account age in whole years at time `n` for an account created at
`d`: the largest `k` such that `d` shifted by `k` years is still at or
before `n`. -/
def wholeYearAge (d n : DT) : Nat :=
  Nat.findGreatest (fun k => ¬ DT.lt n (addYears d k)) (n.year + 1)

set_option maxRecDepth 8000 in
/-- Claim C4, counterexample: for an account created 2020-12-01 with now
2021-02-01 the account age in whole years is 0, yet the loop of
`fetch_commit_total` runs 2 iterations (one window up to the year boundary
2021-01-01 and one from there to now), so the iteration count is not
bounded by the account age in whole years. -/
theorem commit_loop_iterations_exceed_whole_year_age :
    (commitWindows ⟨2021, 2, 1, 0, 0, 0, 0⟩ ⟨2020, 12, 1, 0, 0, 0, 0⟩).length = 2
    ∧ wholeYearAge ⟨2020, 12, 1, 0, 0, 0, 0⟩ ⟨2021, 2, 1, 0, 0, 0, 0⟩ = 0
    ∧ ¬ ((commitWindows ⟨2021, 2, 1, 0, 0, 0, 0⟩
          ⟨2020, 12, 1, 0, 0, 0, 0⟩).length ≤
        wholeYearAge ⟨2020, 12, 1, 0, 0, 0, 0⟩ ⟨2021, 2, 1, 0, 0, 0, 0⟩) := by
  refine ⟨by decide, by decide, by decide⟩

/-- Claim C4, amended: for every creation timestamp and current time, the
commit-aggregation loop terminates after at most `now.year + 1 -
created.year` iterations (the number of calendar years overlapping the
interval, which is at most the account age in whole years plus two); each
iteration strictly advances the window start (each window is nonempty and
starts where the previous one ended), and the loop only runs iterations
whose window start is strictly before `now`. -/
theorem commit_loop_terminates (created now : DT) :
    (commitWindows now created).length ≤ now.year + 1 - created.year
    ∧ now.year + 1 - created.year ≤ wholeYearAge created now + 2
    ∧ chainFrom created (commitWindows now created)
    ∧ (∀ w ∈ commitWindows now created, DT.lt w.1 w.2 ∧ DT.lt w.1 now) := by
  refine ⟨commitWindowsF_length now _ created, ?_, commitWindowsF_chain now _ created, ?_⟩
  · by_cases hy : now.year + 1 ≤ created.year + 2
    · omega
    · have hk : ¬ DT.lt now (addYears created (now.year - 1 - created.year)) := by
        unfold DT.lt addYears
        dsimp only
        omega
      have hle : now.year - 1 - created.year ≤
          Nat.findGreatest (fun k => ¬ DT.lt now (addYears created k))
            (now.year + 1) :=
        Nat.le_findGreatest (by omega) hk
      unfold wholeYearAge
      omega
  · intro w hw
    exact ⟨(commitWindowsF_ends now _ created w hw).2.1,
      (commitWindowsF_ends now _ created w hw).2.2⟩

/-- The `\s` class of `PLACEHOLDER_PATTERN` (line 20).  The pattern is a
str pattern without `re.ASCII`, so `\s` matches exactly the characters for
which `str.isspace()` holds: ASCII whitespace 0x09-0x0D and 0x20, the
separator controls 0x1C-0x1F, NEL 0x85, NBSP 0xA0, and the Unicode space
and line/paragraph separators. -/
def isSpaceChar (c : Char) : Bool :=
  (decide (0x09 ≤ c.toNat) && decide (c.toNat ≤ 0x0d)) || (c.toNat == 0x20) ||
  (decide (0x1c ≤ c.toNat) && decide (c.toNat ≤ 0x1f)) || (c.toNat == 0x85) ||
  (c.toNat == 0xa0) || (c.toNat == 0x1680) ||
  (decide (0x2000 ≤ c.toNat) && decide (c.toNat ≤ 0x200a)) ||
  (c.toNat == 0x2028) || (c.toNat == 0x2029) || (c.toNat == 0x202f) ||
  (c.toNat == 0x205f) || (c.toNat == 0x3000)

/-- The `[A-Z0-9_]` class of `PLACEHOLDER_PATTERN` (line 20). -/
def isTokenChar (c : Char) : Bool :=
  (decide ('A' ≤ c) && decide (c ≤ 'Z')) ||
  (decide ('0' ≤ c) && decide (c ≤ '9')) || (c == '_')

/-- Anchored matcher for `PLACEHOLDER_PATTERN` (line 20): two opening
braces, greedy whitespace, a greedy nonempty `[A-Z0-9_]+` token (the
capture group), greedy whitespace, two closing braces.  Because the three
character classes are pairwise disjoint and disjoint from the brace, the
greedy maximal-munch scan below is exactly the regex's backtracking match.
Returns the matched text (`match.group(0)`), the captured token
(`match.group(1)`; `.strip()` on line 152 is the identity on it since it
cannot contain whitespace), and the remaining input. -/
def matchPlaceholder (cs : List Char) : Option (List Char × String × List Char) :=
  match cs with
  | '\x7b' :: '\x7b' :: r0 =>
    let ws1 := r0.takeWhile isSpaceChar
    let r1 := r0.dropWhile isSpaceChar
    let tok := r1.takeWhile isTokenChar
    let r2 := r1.dropWhile isTokenChar
    if tok = [] then none
    else
      let ws2 := r2.takeWhile isSpaceChar
      let r3 := r2.dropWhile isSpaceChar
      match r3 with
      | '\x7d' :: '\x7d' :: r4 =>
        some ('\x7b' :: '\x7b' :: (ws1 ++ tok ++ ws2 ++ ['\x7d', '\x7d']),
          ⟨tok⟩, r4)
      | _ => none
  | _ => none

/-- The left-to-right non-overlapping scan of `re.sub` specialized to
`PLACEHOLDER_PATTERN` and the `substitute` callback of `render_template`
(lines 151-157): at each position, if the pattern matches, emit the mapped
value (`str(replacements[key])`) when the token is a key of the mapping and
the matched text itself otherwise, then continue after the match; if the
pattern does not match, emit the character and continue.  `fuel` bounds the
recursion; the input length is always sufficient. -/
def renderListF (m : String → Option String) : Nat → List Char → List Char
  | 0, cs => cs
  | _ + 1, [] => []
  | f + 1, c :: cs =>
    match matchPlaceholder (c :: cs) with
    | some (matched, key, rest) =>
      (match m key with
       | some v => v.data
       | none => matched) ++ renderListF m f rest
    | none => c :: renderListF m f cs

/-- `re.sub` of `PLACEHOLDER_PATTERN` over a character list. -/
def renderList (m : String → Option String) (cs : List Char) : List Char :=
  renderListF m cs.length cs

/-- `render_template(template_text, replacements)` (lines 148-157).  The
mapping holds the `str`-converted values (`str(replacements[key])` on line
154); a key mapped to `some v` is a key of the Python dict with
`str(value) = v`. -/
def render_template (template_text : String)
    (replacements : String → Option String) : String :=
  ⟨renderList replacements template_text.data⟩

/-- Whether some position of the text starts a `PLACEHOLDER_PATTERN`
match, i.e. whether the text contains a substring with placeholder
syntax. -/
def hasPlaceholder : List Char → Bool
  | [] => false
  | c :: cs => (matchPlaceholder (c :: cs)).isSome || hasPlaceholder cs

theorem takeWhile_append_all {p : Char → Bool} {l1 : List Char}
    (l2 : List Char) (h : ∀ c ∈ l1, p c) :
    (l1 ++ l2).takeWhile p = l1 ++ l2.takeWhile p := by
  induction l1 with
  | nil => simp
  | cons a l ih =>
    simp only [List.cons_append, List.takeWhile_cons]
    rw [if_pos (h a (by simp)), ih (fun c hc => h c (by simp [hc]))]

theorem dropWhile_append_all {p : Char → Bool} {l1 : List Char}
    (l2 : List Char) (h : ∀ c ∈ l1, p c) :
    (l1 ++ l2).dropWhile p = l2.dropWhile p := by
  induction l1 with
  | nil => simp
  | cons a l ih =>
    simp only [List.cons_append, List.dropWhile_cons]
    rw [if_pos (h a (by simp)), ih (fun c hc => h c (by simp [hc]))]

theorem char_le_toNat {a b : Char} (h : a ≤ b) : a.toNat ≤ b.toNat := h

theorem isTokenChar_not_space {c : Char} (h : isTokenChar c = true) :
    isSpaceChar c = false := by
  unfold isTokenChar at h
  simp only [Bool.or_eq_true, Bool.and_eq_true, decide_eq_true_eq,
    beq_iff_eq] at h
  have hn : (65 ≤ c.toNat ∧ c.toNat ≤ 90) ∨
      (48 ≤ c.toNat ∧ c.toNat ≤ 57) ∨ c.toNat = 95 := by
    rcases h with (⟨h1, h2⟩ | ⟨h1, h2⟩) | rfl
    · exact .inl ⟨char_le_toNat h1, char_le_toNat h2⟩
    · exact .inr (.inl ⟨char_le_toNat h1, char_le_toNat h2⟩)
    · exact .inr (.inr rfl)
  unfold isSpaceChar
  simp only [Bool.or_eq_false_iff, Bool.and_eq_false_iff,
    decide_eq_false_iff_not, not_le, beq_eq_false_iff_ne, ne_eq]
  omega

theorem renderListF_zero (m : String → Option String) (cs : List Char) :
    renderListF m 0 cs = cs := rfl

theorem renderListF_succ (m : String → Option String) (f : Nat) (c : Char)
    (cs : List Char) :
    renderListF m (f + 1) (c :: cs) =
      match matchPlaceholder (c :: cs) with
      | some (matched, key, rest) =>
        (match m key with
         | some v => v.data
         | none => matched) ++ renderListF m f rest
      | none => c :: renderListF m f cs := rfl

theorem matchPlaceholder_split {cs md : List Char} {k : String}
    {r : List Char} (h : matchPlaceholder cs = some (md, k, r)) :
    cs = md ++ r ∧ 5 ≤ md.length := by
  unfold matchPlaceholder at h
  split at h
  · rename_i r0
    dsimp only at h
    split at h
    · exact absurd h (by simp)
    · rename_i htok
      split at h
      · rename_i u1 tail hdrop
        simp only [Option.some.injEq, Prod.mk.injEq] at h
        obtain ⟨hmd, hk, hr⟩ := h
        subst hmd hr
        have key : List.takeWhile isSpaceChar r0 ++
            (List.takeWhile isTokenChar (List.dropWhile isSpaceChar r0) ++
              (List.takeWhile isSpaceChar (List.dropWhile isTokenChar
                  (List.dropWhile isSpaceChar r0)) ++
                List.dropWhile isSpaceChar (List.dropWhile isTokenChar
                  (List.dropWhile isSpaceChar r0)))) = r0 := by
          rw [List.takeWhile_append_dropWhile, List.takeWhile_append_dropWhile,
            List.takeWhile_append_dropWhile]
        constructor
        · simp only [List.cons_append, List.cons.injEq, true_and]
          have key2 : List.takeWhile isSpaceChar r0 ++
              (List.takeWhile isTokenChar (List.dropWhile isSpaceChar r0) ++
                (List.takeWhile isSpaceChar (List.dropWhile isTokenChar
                    (List.dropWhile isSpaceChar r0)) ++
                  ('\x7d' :: '\x7d' :: tail))) = r0 := by
            rw [← hdrop]
            exact key
          conv_lhs => rw [← key2]
          simp
        · have hpos : 0 < (List.takeWhile isTokenChar
              (List.dropWhile isSpaceChar r0)).length :=
            List.length_pos.mpr htok
          simp only [List.length_cons, List.length_append]
          omega
      · exact absurd h (by simp)
  · exact absurd h (by simp)

theorem renderListF_stable (m : String → Option String) :
    ∀ f (cs : List Char), cs.length ≤ f →
      renderListF m f cs = renderList m cs := by
  intro f
  induction f using Nat.strong_induction_on with
  | _ f ih =>
    intro cs hlen
    match f, cs with
    | 0, cs =>
      have h0 : cs = [] := List.length_eq_zero.mp (Nat.le_zero.mp hlen)
      subst h0
      rfl
    | f + 1, [] => rfl
    | f + 1, c :: cs =>
      have hre : renderList m (c :: cs) =
          renderListF m (cs.length + 1) (c :: cs) := by
        unfold renderList
        rw [List.length_cons]
      rw [hre, renderListF_succ, renderListF_succ]
      rcases hm : matchPlaceholder (c :: cs) with _ | ⟨md, k, r⟩
      · dsimp only
        rw [ih f (by omega) cs (by simp only [List.length_cons] at hlen; omega),
          ih cs.length (by simp only [List.length_cons] at hlen; omega) cs
            (le_refl _)]
      · dsimp only
        obtain ⟨hsplit, hmd⟩ := matchPlaceholder_split hm
        have hr : r.length ≤ cs.length := by
          have := congrArg List.length hsplit
          simp only [List.length_cons, List.length_append] at this
          omega
        rw [ih f (by omega) r (by simp only [List.length_cons] at hlen; omega),
          ih cs.length (by simp only [List.length_cons] at hlen; omega) r hr]

theorem renderList_nil (m : String → Option String) : renderList m [] = [] :=
  rfl

theorem renderList_cons_match {m : String → Option String} {c : Char}
    {cs md : List Char} {k : String} {r : List Char}
    (h : matchPlaceholder (c :: cs) = some (md, k, r)) :
    renderList m (c :: cs) =
      (match m k with
       | some v => v.data
       | none => md) ++ renderList m r := by
  obtain ⟨hsplit, hmd⟩ := matchPlaceholder_split h
  have hr : r.length ≤ cs.length := by
    have := congrArg List.length hsplit
    simp only [List.length_cons, List.length_append] at this
    omega
  have hre : renderList m (c :: cs) =
      renderListF m (cs.length + 1) (c :: cs) := by
    unfold renderList
    rw [List.length_cons]
  rw [hre, renderListF_succ, h]
  dsimp only
  rw [renderListF_stable m cs.length r hr]

theorem renderList_cons_skip {m : String → Option String} {c : Char}
    {cs : List Char} (h : matchPlaceholder (c :: cs) = none) :
    renderList m (c :: cs) = c :: renderList m cs := by
  have hre : renderList m (c :: cs) =
      renderListF m (cs.length + 1) (c :: cs) := by
    unfold renderList
    rw [List.length_cons]
  rw [hre, renderListF_succ, h]
  dsimp only
  rfl

theorem isSpaceChar_not_token {c : Char} (h : isSpaceChar c = true) :
    isTokenChar c = false := by
  cases ht : isTokenChar c
  · rfl
  · rw [isTokenChar_not_space ht] at h
    exact absurd h (by simp)

theorem takeWhile_nil_of_head {p : Char → Bool} {c : Char} (l : List Char)
    (h : p c = false) : (c :: l).takeWhile p = [] := by
  simp [List.takeWhile_cons, h]

theorem dropWhile_full_of_head {p : Char → Bool} {c : Char} (l : List Char)
    (h : p c = false) : (c :: l).dropWhile p = c :: l := by
  simp [List.dropWhile_cons, h]

/-- Maximal-munch match of `PLACEHOLDER_PATTERN` at an occurrence laid out
as braces, whitespace, token, whitespace, braces: the matcher consumes
exactly the occurrence and captures exactly the token. -/
theorem matchPlaceholder_at (ws1 tok ws2 rest : List Char)
    (hw1 : ∀ c ∈ ws1, isSpaceChar c = true) (ht : tok ≠ [])
    (htok : ∀ c ∈ tok, isTokenChar c = true)
    (hw2 : ∀ c ∈ ws2, isSpaceChar c = true) :
    matchPlaceholder ('\x7b' :: '\x7b' ::
        (ws1 ++ (tok ++ (ws2 ++ ('\x7d' :: '\x7d' :: rest))))) =
      some ('\x7b' :: '\x7b' :: (ws1 ++ tok ++ ws2 ++ ['\x7d', '\x7d']),
        ⟨tok⟩, rest) := by
  rcases tok with _ | ⟨t0, tok⟩
  · exact absurd rfl ht
  have ht0 : isSpaceChar t0 = false :=
    isTokenChar_not_space (htok t0 (by simp))
  have hz : isSpaceChar '\x7d' = false := by decide
  have hzt : isTokenChar '\x7d' = false := by decide
  have hA : List.takeWhile isSpaceChar
      (ws1 ++ ((t0 :: tok) ++ (ws2 ++ ('\x7d' :: '\x7d' :: rest)))) = ws1 := by
    rw [takeWhile_append_all _ hw1, List.cons_append,
      takeWhile_nil_of_head _ ht0, List.append_nil]
  have hB : List.dropWhile isSpaceChar
      (ws1 ++ ((t0 :: tok) ++ (ws2 ++ ('\x7d' :: '\x7d' :: rest)))) =
      (t0 :: tok) ++ (ws2 ++ ('\x7d' :: '\x7d' :: rest)) := by
    rw [dropWhile_append_all _ hw1, List.cons_append,
      dropWhile_full_of_head _ ht0]
  have hwsTail : List.takeWhile isTokenChar
      (ws2 ++ ('\x7d' :: '\x7d' :: rest)) = [] := by
    rcases ws2 with _ | ⟨s0, ws2⟩
    · simp only [List.nil_append]
      exact takeWhile_nil_of_head _ hzt
    · exact takeWhile_nil_of_head _
        (isSpaceChar_not_token (hw2 s0 (by simp)))
  have hwsTail2 : List.dropWhile isTokenChar
      (ws2 ++ ('\x7d' :: '\x7d' :: rest)) = ws2 ++ ('\x7d' :: '\x7d' :: rest) := by
    rcases ws2 with _ | ⟨s0, ws2⟩
    · simp only [List.nil_append]
      exact dropWhile_full_of_head _ hzt
    · rw [List.cons_append, dropWhile_full_of_head _
        (isSpaceChar_not_token (hw2 s0 (by simp)))]
  have hC : List.takeWhile isTokenChar
      ((t0 :: tok) ++ (ws2 ++ ('\x7d' :: '\x7d' :: rest))) = t0 :: tok := by
    rw [takeWhile_append_all _ htok, hwsTail, List.append_nil]
  have hD : List.dropWhile isTokenChar
      ((t0 :: tok) ++ (ws2 ++ ('\x7d' :: '\x7d' :: rest))) =
      ws2 ++ ('\x7d' :: '\x7d' :: rest) := by
    rw [dropWhile_append_all _ htok, hwsTail2]
  have hE : List.takeWhile isSpaceChar (ws2 ++ ('\x7d' :: '\x7d' :: rest)) =
      ws2 := by
    rw [takeWhile_append_all _ hw2, takeWhile_nil_of_head _ hz,
      List.append_nil]
  have hF : List.dropWhile isSpaceChar (ws2 ++ ('\x7d' :: '\x7d' :: rest)) =
      '\x7d' :: '\x7d' :: rest := by
    rw [dropWhile_append_all _ hw2, dropWhile_full_of_head _ hz]
  rw [matchPlaceholder]
  simp only [hA, hB, hC, hD, hE, hF]
  rw [if_neg (by simp)]

/-- The mapping `{"STARS": 42}` with `str`-conversion of values. -/
def mStars42 : String → Option String :=
  fun k => if k = "STARS" then some (toString (42 : Nat)) else none

/-- The mapping `{"STARS": 1}` with `str`-conversion of values. -/
def mStars1 : String → Option String :=
  fun k => if k = "STARS" then some (toString (1 : Nat)) else none

/-- Claim C3: `render_template` returns text identical to the input except
that every substring matching the placeholder pattern (two opening braces,
optional whitespace, a token of uppercase letters, digits and underscores,
optional whitespace, two closing braces) whose token is a key of the
mapping is replaced by the string form of the mapped value; a matched
substring whose token is not a key is left unchanged verbatim; positions
where the pattern does not match are copied unchanged; and in particular
`render("\x7b\x7b STARS \x7d\x7d", \x7b"STARS": 42\x7d) = "42"`,
`render("\x7b\x7bSTARS\x7d\x7d", \x7b"STARS": 1\x7d) = "1"` and
`render("\x7b\x7b FOO \x7d\x7d", \x7b\x7d) = "\x7b\x7b FOO \x7d\x7d"`;
the whitespace class is Python's Unicode `\s`, so a placeholder spaced
with NBSP (U+00A0) is substituted too. -/
theorem render_template_spec :
    (∀ (m : String → Option String) ws1 tok ws2 rest v,
      (∀ c ∈ ws1, isSpaceChar c = true) → tok ≠ [] →
      (∀ c ∈ tok, isTokenChar c = true) →
      (∀ c ∈ ws2, isSpaceChar c = true) →
      m ⟨tok⟩ = some v →
      renderList m ('\x7b' :: '\x7b' ::
          (ws1 ++ (tok ++ (ws2 ++ ('\x7d' :: '\x7d' :: rest))))) =
        v.data ++ renderList m rest)
    ∧ (∀ (m : String → Option String) ws1 tok ws2 rest,
      (∀ c ∈ ws1, isSpaceChar c = true) → tok ≠ [] →
      (∀ c ∈ tok, isTokenChar c = true) →
      (∀ c ∈ ws2, isSpaceChar c = true) →
      m ⟨tok⟩ = none →
      renderList m ('\x7b' :: '\x7b' ::
          (ws1 ++ (tok ++ (ws2 ++ ('\x7d' :: '\x7d' :: rest))))) =
        ('\x7b' :: '\x7b' :: (ws1 ++ tok ++ ws2 ++ ['\x7d', '\x7d'])) ++
          renderList m rest)
    ∧ (∀ (m : String → Option String) c cs,
        matchPlaceholder (c :: cs) = none →
        renderList m (c :: cs) = c :: renderList m cs)
    ∧ (∀ m, renderList m [] = [])
    ∧ render_template "\x7b\x7b STARS \x7d\x7d" mStars42 = "42"
    ∧ render_template "\x7b\x7bSTARS\x7d\x7d" mStars1 = "1"
    ∧ render_template "\x7b\x7b FOO \x7d\x7d" (fun _ => none) =
        "\x7b\x7b FOO \x7d\x7d"
    ∧ render_template "\x7b\x7b\u00a0STARS\u00a0\x7d\x7d" mStars42 = "42" := by
  refine ⟨?_, ?_, ?_, ?_, by decide, by decide, by decide, by decide⟩
  · intro m ws1 tok ws2 rest v hw1 ht htok hw2 hv
    rw [renderList_cons_match (matchPlaceholder_at ws1 tok ws2 rest hw1 ht htok hw2)]
    rw [hv]
  · intro m ws1 tok ws2 rest hw1 ht htok hw2 hv
    rw [renderList_cons_match (matchPlaceholder_at ws1 tok ws2 rest hw1 ht htok hw2)]
    rw [hv]
  · intro m c cs h
    exact renderList_cons_skip h
  · intro m
    rfl

/-- Witness for C3 at the concrete occurrence
`"\x7b\x7b STARS \x7d\x7d"` with the mapping `\x7b"STARS": 42\x7d`. -/
theorem render_template_spec_witness :
    renderList mStars42 ('\x7b' :: '\x7b' ::
        ([' '] ++ (['S', 'T', 'A', 'R', 'S'] ++
          ([' '] ++ ('\x7d' :: '\x7d' :: []))))) =
      "42".data ++ renderList mStars42 [] :=
  render_template_spec.1 mStars42 [' '] ['S', 'T', 'A', 'R', 'S'] [' '] []
    "42" (by decide) (by decide) (by decide) (by decide) (by decide)

theorem renderList_no_placeholder {m : String → Option String}
    {cs : List Char} (h : hasPlaceholder cs = false) :
    renderList m cs = cs := by
  induction cs with
  | nil => rfl
  | cons c cs ih =>
    unfold hasPlaceholder at h
    simp only [Bool.or_eq_false_iff] at h
    have hm : matchPlaceholder (c :: cs) = none := by
      rcases hmm : matchPlaceholder (c :: cs) with _ | v
      · rfl
      · rw [hmm] at h
        simp at h
    rw [renderList_cons_skip hm, ih h.2]

/-- Claim C9: for every mapping `m` and every text containing no substring
with placeholder syntax, `render_template` is the identity. -/
theorem render_template_identity (t : String) (m : String → Option String)
    (h : hasPlaceholder t.data = false) : render_template t m = t := by
  unfold render_template
  rw [renderList_no_placeholder h]

/-- Witness for C9 on a concrete placeholder-free text (single braces and a
lowercase word do not form a placeholder). -/
theorem render_template_identity_witness :
    render_template "hello \x7bworld\x7d \x7b\x7bnope\x7d\x7d" mStars42 =
      "hello \x7bworld\x7d \x7b\x7bnope\x7d\x7d" :=
  render_template_identity "hello \x7bworld\x7d \x7b\x7bnope\x7d\x7d"
    mStars42 (by decide)

/-- Claim C8: `render_template` is pure: it always produces a result
(never raises), and two invocations with equal template text and pointwise
equal mappings produce equal output. -/
theorem render_template_pure :
    (∀ t (m : String → Option String), ∃ out, render_template t m = out)
    ∧ (∀ (t1 t2 : String) (m1 m2 : String → Option String),
      t1 = t2 → (∀ k, m1 k = m2 k) →
      render_template t1 m1 = render_template t2 m2) := by
  constructor
  · exact fun t m => ⟨_, rfl⟩
  · intro t1 t2 m1 m2 ht hm
    subst ht
    rw [funext hm]

/-- Witness for C8 at a concrete template and mapping. -/
theorem render_template_pure_witness :
    render_template "\x7b\x7b STARS \x7d\x7d" mStars42 =
      render_template "\x7b\x7b STARS \x7d\x7d"
        (fun k => if k = "STARS" then some "42" else none) :=
  render_template_pure.2 "\x7b\x7b STARS \x7d\x7d" "\x7b\x7b STARS \x7d\x7d"
    mStars42 (fun k => if k = "STARS" then some "42" else none) rfl
    (fun _ => rfl)

/-- The mapping `\x7b"A": "\x7b\x7b B \x7d\x7d", "B": "x"\x7d`. -/
def mChain : String → Option String :=
  fun k => if k = "A" then some "\x7b\x7b B \x7d\x7d"
    else if k = "B" then some "x" else none

/-- Claim C10: substitution is single-pass: a mapped value that itself
contains placeholder syntax appears verbatim in the output and is not
substituted again in the same pass, so rendering is not idempotent on such
inputs. -/
theorem render_template_single_pass :
    render_template "\x7b\x7b A \x7d\x7d" mChain = "\x7b\x7b B \x7d\x7d"
    ∧ render_template (render_template "\x7b\x7b A \x7d\x7d" mChain) mChain = "x"
    ∧ render_template "\x7b\x7b A \x7d\x7d" mChain ≠ "x" := by
  refine ⟨by decide, by decide, by decide⟩

/-- Decoded JSON values, as produced by `json.loads` (line 42); numbers are
modelled as integers (the script only consumes integer counts). -/
inductive JVal where
  | null
  | b (bv : Bool)
  | i (n : Int)
  | s (st : String)
  | arr (xs : List JVal)
  | obj (fields : List (String × JVal))

/-- The Python exceptions the script can raise: `RuntimeError` (lines 45,
48, 69), `SystemExit` (lines 173, 175), and the built-in `KeyError`,
`TypeError` and `AttributeError` raised by subscripting and attribute
access on ill-shaped data, plus `ValueError` from `datetime.fromisoformat`. -/
inductive PyErr where
  | runtimeError (msg : String)
  | systemExit (msg : String)
  | keyError (key : String)
  | typeError
  | attributeError
  | valueError (msg : String)
  | fileNotFoundError (path : String)
deriving DecidableEq, Repr

/-- Outcome of `urllib.request.urlopen` plus `json.loads` (lines 41-45):
either a decoded body, or an `HTTPError` with status code and body text. -/
inductive HttpResult where
  | success (body : JVal)
  | httpError (code : Nat) (detail : String)

mutual
/-- `str(value)` on a decoded JSON value, as used by the f-string on line
48 (Python repr of parsed JSON: dicts and lists with single-quoted
strings). -/
def pyStr : JVal → String
  | .null => "None"
  | .b true => "True"
  | .b false => "False"
  | .i n => toString n
  | .s st => "\x27" ++ st ++ "\x27"
  | .arr xs => "[" ++ pyStrList xs ++ "]"
  | .obj fs => "\x7b" ++ pyStrObj fs ++ "\x7d"

def pyStrList : List JVal → String
  | [] => ""
  | [x] => pyStr x
  | x :: xs => pyStr x ++ ", " ++ pyStrList xs

def pyStrObj : List (String × JVal) → String
  | [] => ""
  | [(k, v)] => "\x27" ++ k ++ "\x27: " ++ pyStr v
  | (k, v) :: fs => "\x27" ++ k ++ "\x27: " ++ pyStr v ++ ", " ++ pyStrObj fs
end

/-- Python `j[k]` subscripting: a `KeyError` on a dict without the key, a
`TypeError` on non-dict values. -/
def jGet (j : JVal) (k : String) : Except PyErr JVal :=
  match j with
  | .obj fs =>
    match fs.lookup k with
    | some v => .ok v
    | none => .error (.keyError k)
  | _ => .error .typeError

/-- Python `j.get(k)`: `None` default on a dict, `AttributeError` on
non-dict values. -/
def dictGet (j : JVal) (k : String) : Except PyErr JVal :=
  match j with
  | .obj fs => .ok ((fs.lookup k).getD .null)
  | _ => .error .attributeError

/-- Python truthiness of a decoded JSON value (`if not user:` on line
68). -/
def JVal.truthy : JVal → Bool
  | .null => false
  | .b bv => bv
  | .i n => n != 0
  | .s st => st != ""
  | .arr xs => !xs.isEmpty
  | .obj fs => !fs.isEmpty

/-- Python `"errors" in data` (line 47): key membership on a dict, element
membership on a list, substring test on a string, `TypeError` otherwise. -/
def pyContainsErrors : JVal → Except PyErr Bool
  | .obj fs => .ok (fs.lookup "errors").isSome
  | .arr xs => .ok (xs.any fun v =>
      match v with
      | .s st => st == "errors"
      | _ => false)
  | .s st => .ok (decide (List.IsInfix "errors".data st.data))
  | _ => .error .typeError

/-- `GitHubGraphQLClient.execute` (lines 29-50) given the transport
outcome of its single request: an `HTTPError` becomes a `RuntimeError`
whose message carries the status code and response body (lines 43-45); a
decoded body containing `errors` becomes a `RuntimeError` carrying the
raw error payload (lines 47-48); otherwise the top-level `data` field is
returned (line 50). -/
def executeResp (resp : HttpResult) : Except PyErr JVal :=
  match resp with
  | .httpError code detail =>
    .error (.runtimeError
      ("GraphQL request failed (" ++ toString code ++ "): " ++ detail))
  | .success data =>
    match pyContainsErrors data with
    | .error e => .error e
    | .ok true =>
      match data with
      | .obj fs =>
        .error (.runtimeError ("GraphQL API returned errors: " ++
          pyStr ((fs.lookup "errors").getD .null)))
      | _ => .error .typeError
    | .ok false => jGet data "data"

/-- Claim C6: `execute` fails with the transport-kind error
(`RuntimeError("GraphQL request failed (...)")`) on an HTTP failure, and
the message carries the status code and the response body; it fails with
the API-kind error (`RuntimeError("GraphQL API returned errors: ...")`)
when the response object contains an `errors` entry, and the message
carries the raw error payload; otherwise it returns the decoded top-level
`data` field. -/
theorem execute_error_handling :
    (∀ (code : Nat) (detail : String),
      executeResp (.httpError code detail) =
        .error (.runtimeError ("GraphQL request failed (" ++ toString code ++
          "): " ++ detail))
      ∧ ∃ pre mid, "GraphQL request failed (" ++ toString code ++ "): " ++
          detail = pre ++ toString code ++ mid ++ detail)
    ∧ (∀ (fs : List (String × JVal)) (errs : JVal),
      fs.lookup "errors" = some errs →
      executeResp (.success (.obj fs)) =
        .error (.runtimeError ("GraphQL API returned errors: " ++ pyStr errs))
      ∧ ∃ pre, "GraphQL API returned errors: " ++ pyStr errs =
          pre ++ pyStr errs)
    ∧ (∀ (fs : List (String × JVal)) (d : JVal),
      fs.lookup "errors" = none → fs.lookup "data" = some d →
      executeResp (.success (.obj fs)) = .ok d) := by
  refine ⟨?_, ?_, ?_⟩
  · intro code detail
    exact ⟨rfl, "GraphQL request failed (", "): ", rfl⟩
  · intro fs errs h
    constructor
    · simp [executeResp, pyContainsErrors, h]
    · exact ⟨"GraphQL API returned errors: ", rfl⟩
  · intro fs d h hd
    simp [executeResp, pyContainsErrors, jGet, h, hd]

/-- Witness for C6 at a concrete error payload and a concrete success
body. -/
theorem execute_error_handling_witness :
    (executeResp (.success (.obj [("errors", .arr [.s "boom"])])) =
      .error (.runtimeError ("GraphQL API returned errors: " ++
        pyStr (.arr [.s "boom"])))
    ∧ ∃ pre, "GraphQL API returned errors: " ++ pyStr (.arr [.s "boom"]) =
        pre ++ pyStr (.arr [.s "boom"]))
    ∧ executeResp (.success (.obj [("data", .i 7)])) = .ok (.i 7) :=
  ⟨execute_error_handling.2.1 [("errors", .arr [.s "boom"])]
      (.arr [.s "boom"]) rfl,
    execute_error_handling.2.2 [("data", .i 7)] (.i 7) rfl rfl⟩

/-- `fetch_user_created_at` (lines 58-71) given the transport outcome of
its one query: runs `execute`, reads `data.get("user")`, raises the
not-found `RuntimeError` when the user is falsy (lines 67-69), otherwise
reads `user["createdAt"]` and parses it with `datetime.fromisoformat`
after replacing `Z` with `+00:00` (line 71); the library parser is the
`parseIso` oracle. -/
def fetch_user_created_at (parseIso : String → Except PyErr DT)
    (resp : HttpResult) (login : String) : Except PyErr DT :=
  match executeResp resp with
  | .error e => .error e
  | .ok data =>
    match dictGet data "user" with
    | .error e => .error e
    | .ok user =>
      if user.truthy then
        match jGet user "createdAt" with
        | .error e => .error e
        | .ok (.s created_at) =>
          parseIso (created_at.replace "Z" "+00:00")
        | .ok _ => .error .attributeError
      else
        .error (.runtimeError ("User \x27" ++ login ++
          "\x27 not found when fetching creation date."))

theorem runtime_msg_ne {s t : String} (hs : s.data.head? = some 'U')
    (ht : t.data.head? = some 'G') :
    PyErr.runtimeError s ≠ PyErr.runtimeError t := by
  intro h
  injection h with hmsg
  rw [hmsg, ht] at hs
  exact absurd (Option.some.inj hs) (by decide)

/-- Claim C7: when the creation-date query returns no user (a falsy
`user` field under `data`), `fetch_user_created_at` fails with the
not-found error, and that error is distinct from every transport-kind
error, every API-kind error, and every configuration error
(`SystemExit`). -/
theorem user_not_found_error (parseIso : String → Except PyErr DT)
    (login : String) (fs dfs : List (String × JVal))
    (herr : fs.lookup "errors" = none)
    (hdata : fs.lookup "data" = some (.obj dfs))
    (huser : ((dfs.lookup "user").getD .null).truthy = false) :
    fetch_user_created_at parseIso (.success (.obj fs)) login =
      .error (.runtimeError ("User \x27" ++ login ++
        "\x27 not found when fetching creation date."))
    ∧ (∀ (code : Nat) (detail : String),
      PyErr.runtimeError ("User \x27" ++ login ++
        "\x27 not found when fetching creation date.") ≠
      PyErr.runtimeError ("GraphQL request failed (" ++ toString code ++
        "): " ++ detail))
    ∧ (∀ errs : JVal,
      PyErr.runtimeError ("User \x27" ++ login ++
        "\x27 not found when fetching creation date.") ≠
      PyErr.runtimeError ("GraphQL API returned errors: " ++ pyStr errs))
    ∧ (∀ msg : String,
      PyErr.runtimeError ("User \x27" ++ login ++
        "\x27 not found when fetching creation date.") ≠
      PyErr.systemExit msg) := by
  refine ⟨?_, ?_, ?_, ?_⟩
  · unfold fetch_user_created_at
    rw [execute_error_handling.2.2 fs (.obj dfs) herr hdata]
    simp [dictGet, huser]
  · intro code detail
    exact runtime_msg_ne rfl rfl
  · intro errs
    exact runtime_msg_ne rfl rfl
  · intro msg h
    exact PyErr.noConfusion h

/-- Witness for C7 at a concrete response with `user: null`. -/
theorem user_not_found_error_witness :
    fetch_user_created_at (fun _ => .error .typeError)
      (.success (.obj [("data", .obj [("user", .null)])])) "octocat" =
      .error (.runtimeError ("User \x27octocat\x27 not found when fetching creation date."))
    ∧ PyErr.runtimeError ("User \x27octocat" ++
        "\x27 not found when fetching creation date.") ≠
      PyErr.systemExit "Missing GITHUB_TOKEN environment variable for GitHub API access." := by
  have h := user_not_found_error (fun _ => .error .typeError) "octocat"
    [("data", .obj [("user", .null)])] [("user", .null)] rfl rfl rfl
  exact ⟨h.1, h.2.2.2 _⟩

/-- The three query shapes sent to the GraphQL endpoint; the query text is
opaque to the control flow, so it is modelled by a tag. -/
inductive Query where
  | createdAtQ
  | contributionsQ
  | starsQ
deriving DecidableEq, Repr

/-- Observable operations of a run of `main`: network requests (one per
`execute` call), the template read (line 186), the render step (line 187)
and the README write (line 188). -/
inductive Ev where
  | network (q : Query) (vars : List (String × JVal))
  | readFile (path : String)
  | render
  | writeFile (path : String) (content : String)

def pad2 (n : Nat) : String :=
  if n < 10 then "0" ++ toString n else toString n

def pad4 (n : Nat) : String :=
  if n < 10 then "000" ++ toString n
  else if n < 100 then "00" ++ toString n
  else if n < 1000 then "0" ++ toString n
  else toString n

/-- `isoformat` (lines 53-55): ISO 8601 text of a UTC datetime with
microseconds stripped and the `Z` suffix. -/
def isoformat (d : DT) : String :=
  pad4 d.year ++ "-" ++ pad2 d.month ++ "-" ++ pad2 d.day ++ "T" ++
  pad2 d.hour ++ ":" ++ pad2 d.minute ++ ":" ++ pad2 d.second ++ "Z"

/-- The inner loop of `fetch_total_stars` (lines 139-140): sum
`repo["stargazerCount"]` over the page's nodes. -/
def addStars : List JVal → Int → Except PyErr Int
  | [], total => .ok total
  | repo :: rest, total =>
    match jGet repo "stargazerCount" with
    | .error e => .error e
    | .ok (.i n) => addStars rest (total + n)
    | .ok _ => .error .typeError

/-- The pure response-processing of one `fetch_total_stars` page (lines
138-143): extract `data["user"]["repositories"]`, fold the star counts of
`nodes`, then read `pageInfo`; returns the new total and the continuation
cursor when `hasNextPage` is truthy. -/
def starsPage (data : JVal) (total : Int) : Except PyErr (Int × Option JVal) :=
  match jGet data "user" with
  | .error e => .error e
  | .ok user =>
    match jGet user "repositories" with
    | .error e => .error e
    | .ok repos =>
      match jGet repos "nodes" with
      | .error e => .error e
      | .ok (.arr nodes) =>
        (match addStars nodes total with
         | .error e => .error e
         | .ok total2 =>
           match jGet repos "pageInfo" with
           | .error e => .error e
           | .ok pageInfo =>
             match jGet pageInfo "hasNextPage" with
             | .error e => .error e
             | .ok hasNext =>
               if hasNext.truthy then
                 match jGet pageInfo "endCursor" with
                 | .error e => .error e
                 | .ok cur => .ok (total2, some cur)
               else .ok (total2, none))
      | .ok _ => .error .typeError

/-- The pagination loop of `fetch_total_stars` (lines 136-143) over the
`api` oracle, producing the event trace of its requests.  `none` marks
insufficient fuel (the Python loop does not terminate unless the API
eventually reports `hasNextPage = false`). -/
def starsLoopF (api : Query → List (String × JVal) → HttpResult)
    (login : String) : Nat → JVal → Int → Option (List Ev × Except PyErr Int)
  | 0, _, _ => none
  | fuel + 1, cursor, total =>
    let vars := [("login", JVal.s login), ("cursor", cursor)]
    match executeResp (api .starsQ vars) with
    | .error e => some ([Ev.network .starsQ vars], .error e)
    | .ok data =>
      match starsPage data total with
      | .error e => some ([Ev.network .starsQ vars], .error e)
      | .ok (total2, none) => some ([Ev.network .starsQ vars], .ok total2)
      | .ok (total2, some cur) =>
        match starsLoopF api login fuel cur total2 with
        | none => none
        | some (tr, res) => some (Ev.network .starsQ vars :: tr, res)

/-- `fetch_total_stars` (lines 110-145): start the pagination loop with a
`None` cursor and zero total. -/
def fetch_total_stars (api : Query → List (String × JVal) → HttpResult)
    (login : String) (fuel : Nat) : Option (List Ev × Except PyErr Int) :=
  starsLoopF api login fuel JVal.null 0

/-- The pure response-processing of one commit window (lines 101-103):
`data["user"]["contributionsCollection"]["totalCommitContributions"]`. -/
def commitCount (data : JVal) : Except PyErr Int :=
  match jGet data "user" with
  | .error e => .error e
  | .ok user =>
    match jGet user "contributionsCollection" with
    | .error e => .error e
    | .ok coll =>
      match jGet coll "totalCommitContributions" with
      | .error e => .error e
      | .ok (.i n) => .ok n
      | .ok _ => .error .typeError

/-- The windowed loop of `fetch_commit_total` (lines 90-107) over the
`api` oracle, producing the event trace of its requests; the fuel
`now.year + 1 - created.year` supplied by `fetch_commit_totalE` matches
the iteration bound proved for the pure loop (`commitWindowsF_length`). -/
def commitLoopE (api : Query → List (String × JVal) → HttpResult)
    (login : String) (now : DT) :
    Nat → DT → Int → Option (List Ev × Except PyErr Int)
  | 0, start, total =>
    if DT.lt start now then none else some ([], .ok total)
  | fuel + 1, start, total =>
    if DT.lt start now then
      let e0 := jan1 (start.year + 1)
      let e := if DT.lt now e0 then now else e0
      let vars := [("login", JVal.s login), ("from", JVal.s (isoformat start)),
        ("to", JVal.s (isoformat e))]
      match executeResp (api .contributionsQ vars) with
      | .error err => some ([Ev.network .contributionsQ vars], .error err)
      | .ok data =>
        match commitCount data with
        | .error err => some ([Ev.network .contributionsQ vars], .error err)
        | .ok n =>
          match commitLoopE api login now fuel e (total + n) with
          | none => none
          | some (tr, res) => some (Ev.network .contributionsQ vars :: tr, res)
    else some ([], .ok total)

/-- `fetch_commit_total` (lines 74-107) over the oracles: one creation-date
query through `fetch_user_created_at`, then the windowed loop. -/
def fetch_commit_totalE (api : Query → List (String × JVal) → HttpResult)
    (parseIso : String → Except PyErr DT) (login : String) (now : DT) :
    Option (List Ev × Except PyErr Int) :=
  match fetch_user_created_at parseIso
      (api .createdAtQ [("login", JVal.s login)]) login with
  | .error e => some ([Ev.network .createdAtQ [("login", JVal.s login)]], .error e)
  | .ok created =>
    match commitLoopE api login now (now.year + 1 - created.year) created 0 with
    | none => none
    | some (tr, res) =>
      some (Ev.network .createdAtQ [("login", JVal.s login)] :: tr, res)

/-- Python `a or b` on optional strings (line 171): the empty string is
falsy. -/
def pyOr (a b : Option String) : Option String :=
  match a with
  | some s => if s = "" then b else some s
  | none => b

/-- Python `not x` on an optional string (lines 172, 174). -/
def pyFalsy : Option String → Bool
  | none => true
  | some s => s == ""

/-- `main` (lines 160-189) over oracles for the network (`api`), the
`datetime.fromisoformat` library parser (`parseIso`), the environment
(`env`), the filesystem (`fsys`), the parsed command line (`templateArg`,
`readmeArg`, `loginCli`; `args.login` defaults to
`GITHUB_REPOSITORY_OWNER`), and the current time (`now`).  Returns the
event trace together with the outcome; `none` marks insufficient
pagination fuel.  `print` calls are not modelled (they touch no modelled
state). -/
def mainRun (api : Query → List (String × JVal) → HttpResult)
    (parseIso : String → Except PyErr DT) (env : String → Option String)
    (fsys : String → Option String) (templateArg readmeArg : String)
    (loginCli : Option String) (now : DT) (starsFuel : Nat) :
    Option (List Ev × Except PyErr Unit) :=
  let login := loginCli <|> env "GITHUB_REPOSITORY_OWNER"
  let token := pyOr (env "GITHUB_TOKEN") (env "TOKEN")
  if pyFalsy token then
    some ([], .error (.systemExit
      "Missing GITHUB_TOKEN environment variable for GitHub API access."))
  else if pyFalsy login then
    some ([], .error (.systemExit
      "GitHub login is not specified. Pass --login or set GITHUB_REPOSITORY_OWNER."))
  else
    let loginS := login.getD ""
    match fetch_total_stars api loginS starsFuel with
    | none => none
    | some (tr1, .error e) => some (tr1, .error e)
    | some (tr1, .ok stars) =>
      match fetch_commit_totalE api parseIso loginS now with
      | none => none
      | some (tr2, .error e) => some (tr1 ++ tr2, .error e)
      | some (tr2, .ok commits) =>
        match fsys templateArg with
        | none => some (tr1 ++ tr2 ++ [Ev.readFile templateArg],
            .error (.fileNotFoundError templateArg))
        | some template_text =>
          let rendered := render_template template_text
            (fun k => if k = "STARS" then some (toString stars)
              else if k = "COMMITS" then some (toString commits) else none)
          some (tr1 ++ tr2 ++ [Ev.readFile templateArg, Ev.render,
            Ev.writeFile readmeArg rendered], .ok ())

theorem starsLoopF_trace (api : Query → List (String × JVal) → HttpResult)
    (login : String) :
    ∀ (fuel : Nat) (cursor : JVal) (total : Int) (tr : List Ev)
      (res : Except PyErr Int),
      starsLoopF api login fuel cursor total = some (tr, res) →
      ∀ ev ∈ tr, ∃ q v, ev = Ev.network q v := by
  intro fuel
  induction fuel with
  | zero =>
    intro cursor total tr res h
    simp [starsLoopF] at h
  | succ fuel ih =>
    intro cursor total tr res h
    rw [starsLoopF] at h
    try dsimp only at h
    rcases hE : executeResp
        (api .starsQ [("login", JVal.s login), ("cursor", cursor)])
      with e | data
    · rw [hE] at h
      try dsimp only at h
      injection h with h'
      injection h' with htr hres
      subst htr
      intro ev hev
      simp only [List.mem_singleton] at hev
      subst hev
      exact ⟨_, _, rfl⟩
    · rw [hE] at h
      try dsimp only at h
      rcases hP : starsPage data total with e | ⟨total2, cur⟩
      · rw [hP] at h
        try dsimp only at h
        injection h with h'
        injection h' with htr hres
        subst htr
        intro ev hev
        simp only [List.mem_singleton] at hev
        subst hev
        exact ⟨_, _, rfl⟩
      · rw [hP] at h
        rcases cur with _ | cur
        · try dsimp only at h
          injection h with h'
          injection h' with htr hres
          subst htr
          intro ev hev
          simp only [List.mem_singleton] at hev
          subst hev
          exact ⟨_, _, rfl⟩
        · try dsimp only at h
          rcases hR : starsLoopF api login fuel cur total2 with _ | ⟨tr', res'⟩
          · rw [hR] at h
            exact absurd h (by simp)
          · rw [hR] at h
            try dsimp only at h
            injection h with h'
            injection h' with htr hres
            subst htr
            intro ev hev
            rcases List.mem_cons.mp hev with rfl | hev'
            · exact ⟨_, _, rfl⟩
            · exact ih cur total2 tr' res' hR ev hev'

theorem commitLoopE_trace (api : Query → List (String × JVal) → HttpResult)
    (login : String) (now : DT) :
    ∀ (fuel : Nat) (start : DT) (total : Int) (tr : List Ev)
      (res : Except PyErr Int),
      commitLoopE api login now fuel start total = some (tr, res) →
      ∀ ev ∈ tr, ∃ q v, ev = Ev.network q v := by
  intro fuel
  induction fuel with
  | zero =>
    intro start total tr res h
    rw [commitLoopE] at h
    split at h
    · exact absurd h (by simp)
    · injection h with h'
      injection h' with htr hres
      subst htr
      intro ev hev
      simp at hev
  | succ fuel ih =>
    intro start total tr res h
    rw [commitLoopE] at h
    split at h
    · try dsimp only at h
      rcases hE : executeResp (api .contributionsQ
          [("login", JVal.s login), ("from", JVal.s (isoformat start)),
            ("to", JVal.s (isoformat
              (if DT.lt now (jan1 (start.year + 1)) then now
               else jan1 (start.year + 1))))])
        with e | data
      · rw [hE] at h
        try dsimp only at h
        injection h with h'
        injection h' with htr hres
        subst htr
        intro ev hev
        simp only [List.mem_singleton] at hev
        subst hev
        exact ⟨_, _, rfl⟩
      · rw [hE] at h
        try dsimp only at h
        rcases hC : commitCount data with e | n
        · rw [hC] at h
          try dsimp only at h
          injection h with h'
          injection h' with htr hres
          subst htr
          intro ev hev
          simp only [List.mem_singleton] at hev
          subst hev
          exact ⟨_, _, rfl⟩
        · rw [hC] at h
          try dsimp only at h
          rcases hR : commitLoopE api login now fuel
              (if DT.lt now (jan1 (start.year + 1)) then now
               else jan1 (start.year + 1)) (total + n)
            with _ | ⟨tr', res'⟩
          · rw [hR] at h
            exact absurd h (by simp)
          · rw [hR] at h
            try dsimp only at h
            injection h with h'
            injection h' with htr hres
            subst htr
            intro ev hev
            rcases List.mem_cons.mp hev with rfl | hev'
            · exact ⟨_, _, rfl⟩
            · exact ih _ (total + n) tr' res' hR ev hev'
    · injection h with h'
      injection h' with htr hres
      subst htr
      intro ev hev
      simp at hev

theorem fetch_commit_totalE_trace
    (api : Query → List (String × JVal) → HttpResult)
    (parseIso : String → Except PyErr DT) (login : String) (now : DT)
    (tr : List Ev) (res : Except PyErr Int)
    (h : fetch_commit_totalE api parseIso login now = some (tr, res)) :
    ∀ ev ∈ tr, ∃ q v, ev = Ev.network q v := by
  unfold fetch_commit_totalE at h
  rcases hU : fetch_user_created_at parseIso
      (api .createdAtQ [("login", JVal.s login)]) login with e | created
  · rw [hU] at h
    try dsimp only at h
    injection h with h'
    injection h' with htr hres
    subst htr
    intro ev hev
    simp only [List.mem_singleton] at hev
    subst hev
    exact ⟨_, _, rfl⟩
  · rw [hU] at h
    try dsimp only at h
    rcases hR : commitLoopE api login now (now.year + 1 - created.year)
        created 0 with _ | ⟨tr', res'⟩
    · rw [hR] at h
      exact absurd h (by simp)
    · rw [hR] at h
      try dsimp only at h
      injection h with h'
      injection h' with htr hres
      subst htr
      intro ev hev
      rcases List.mem_cons.mp hev with rfl | hev'
      · exact ⟨_, _, rfl⟩
      · exact commitLoopE_trace api login now _ created 0 tr' res' hR ev hev'

/-- Claim C5: if neither bearer-token environment variable is set, `main`
fails with the configuration error (`SystemExit` with a non-empty
descriptive message, hence a non-zero exit status) and the trace is empty,
so no network call was attempted; likewise, with a token present, when the
login value is missing from both the command line and the environment. -/
theorem missing_config_no_network
    (api : Query → List (String × JVal) → HttpResult)
    (parseIso : String → Except PyErr DT) (env : String → Option String)
    (fsys : String → Option String) (tA rA : String) (lc : Option String)
    (now : DT) (fuel : Nat) :
    (env "GITHUB_TOKEN" = none → env "TOKEN" = none →
      mainRun api parseIso env fsys tA rA lc now fuel =
        some ([], .error (.systemExit
          "Missing GITHUB_TOKEN environment variable for GitHub API access."))
      ∧ "Missing GITHUB_TOKEN environment variable for GitHub API access." ≠ "")
    ∧ (∀ tok, env "GITHUB_TOKEN" = some tok → tok ≠ "" → lc = none →
      env "GITHUB_REPOSITORY_OWNER" = none →
      mainRun api parseIso env fsys tA rA lc now fuel =
        some ([], .error (.systemExit
          "GitHub login is not specified. Pass --login or set GITHUB_REPOSITORY_OWNER."))
      ∧ "GitHub login is not specified. Pass --login or set GITHUB_REPOSITORY_OWNER." ≠ "") := by
  constructor
  · intro h1 h2
    refine ⟨?_, by decide⟩
    unfold mainRun
    simp [pyOr, pyFalsy, h1, h2]
  · intro tok h1 hne hlc hown
    refine ⟨?_, by decide⟩
    subst hlc
    unfold mainRun
    simp [pyOr, pyFalsy, h1, hne, hown]

/-- Witness for C5: concrete empty environment (token part) and concrete
token-only environment (login part). -/
theorem missing_config_no_network_witness :
    (mainRun (fun _ _ => .httpError 500 "x") (fun _ => .error .typeError)
        (fun _ => none) (fun _ => none) "TEMPLATE.md" "README.md" none
        ⟨2021, 1, 1, 0, 0, 0, 0⟩ 1 =
      some ([], .error (.systemExit
        "Missing GITHUB_TOKEN environment variable for GitHub API access.")))
    ∧ (mainRun (fun _ _ => .httpError 500 "x") (fun _ => .error .typeError)
        (fun k => if k = "GITHUB_TOKEN" then some "t" else none)
        (fun _ => none) "TEMPLATE.md" "README.md" none
        ⟨2021, 1, 1, 0, 0, 0, 0⟩ 1 =
      some ([], .error (.systemExit
        "GitHub login is not specified. Pass --login or set GITHUB_REPOSITORY_OWNER."))) :=
  ⟨((missing_config_no_network (fun _ _ => .httpError 500 "x")
      (fun _ => .error .typeError) (fun _ => none) (fun _ => none)
      "TEMPLATE.md" "README.md" none ⟨2021, 1, 1, 0, 0, 0, 0⟩ 1).1
      rfl rfl).1,
   ((missing_config_no_network (fun _ _ => .httpError 500 "x")
      (fun _ => .error .typeError)
      (fun k => if k = "GITHUB_TOKEN" then some "t" else none)
      (fun _ => none) "TEMPLATE.md" "README.md" none
      ⟨2021, 1, 1, 0, 0, 0, 0⟩ 1).2 "t" rfl (by decide) rfl rfl).1⟩

/-- Claim C2: for any run of `main` that returns, if any step failed
(transport failure, API error payload, account not found, or any other
raised error) the trace contains no write event, so the README file is
left untouched; if no error occurred, the trace is exactly the network
requests of the stats fetches followed by one template read, one render
and one write, in that order: fetch stats, then render, then write, each
exactly once. -/
theorem main_write_discipline
    (api : Query → List (String × JVal) → HttpResult)
    (parseIso : String → Except PyErr DT) (env : String → Option String)
    (fsys : String → Option String) (tA rA : String) (lc : Option String)
    (now : DT) (fuel : Nat) (tr : List Ev) (res : Except PyErr Unit)
    (h : mainRun api parseIso env fsys tA rA lc now fuel = some (tr, res)) :
    ((∃ e, res = .error e) → ∀ p c, Ev.writeFile p c ∉ tr)
    ∧ (res = .ok () → ∃ nets content,
        (∀ ev ∈ nets, ∃ q v, ev = Ev.network q v) ∧
        tr = nets ++ [Ev.readFile tA, Ev.render, Ev.writeFile rA content]) := by
  unfold mainRun at h
  dsimp only at h
  by_cases htok : pyFalsy (pyOr (env "GITHUB_TOKEN") (env "TOKEN")) = true
  · rw [if_pos htok] at h
    injection h with h'
    injection h' with htr hres
    subst htr hres
    constructor
    · intro _ p c
      simp
    · intro hok
      exact absurd hok (by simp)
  · rw [if_neg htok] at h
    by_cases hlog : pyFalsy (lc <|> env "GITHUB_REPOSITORY_OWNER") = true
    · rw [if_pos hlog] at h
      injection h with h'
      injection h' with htr hres
      subst htr hres
      constructor
      · intro _ p c
        simp
      · intro hok
        exact absurd hok (by simp)
    · rw [if_neg hlog] at h
      generalize hL : (lc <|> env "GITHUB_REPOSITORY_OWNER").getD "" = loginS at h
      rcases hS : fetch_total_stars api loginS fuel with _ | ⟨tr1, res1⟩
      · rw [hS] at h
        exact absurd h (by simp)
      · rw [hS] at h
        have htr1 : ∀ ev ∈ tr1, ∃ q v, ev = Ev.network q v := by
          unfold fetch_total_stars at hS
          exact starsLoopF_trace api loginS fuel JVal.null 0 tr1 res1 hS
        rcases res1 with e | stars
        · dsimp only at h
          injection h with h'
          injection h' with htr hres
          subst htr hres
          constructor
          · intro _ p c hmem
            obtain ⟨q, v, hev⟩ := htr1 _ hmem
            exact Ev.noConfusion hev
          · intro hok
            exact absurd hok (by simp)
        · dsimp only at h
          rcases hC : fetch_commit_totalE api parseIso loginS now
            with _ | ⟨tr2, res2⟩
          · rw [hC] at h
            exact absurd h (by simp)
          · rw [hC] at h
            have htr2 : ∀ ev ∈ tr2, ∃ q v, ev = Ev.network q v :=
              fetch_commit_totalE_trace api parseIso loginS now tr2 res2 hC
            rcases res2 with e | commits
            · dsimp only at h
              injection h with h'
              injection h' with htr hres
              subst htr hres
              constructor
              · intro _ p c hmem
                rcases List.mem_append.mp hmem with hm | hm
                · obtain ⟨q, v, hev⟩ := htr1 _ hm
                  exact Ev.noConfusion hev
                · obtain ⟨q, v, hev⟩ := htr2 _ hm
                  exact Ev.noConfusion hev
              · intro hok
                exact absurd hok (by simp)
            · dsimp only at h
              rcases hF : fsys tA with _ | template_text
              · rw [hF] at h
                dsimp only at h
                injection h with h'
                injection h' with htr hres
                subst htr hres
                constructor
                · intro _ p c hmem
                  rcases List.mem_append.mp hmem with hm | hm
                  · rcases List.mem_append.mp hm with hm' | hm'
                    · obtain ⟨q, v, hev⟩ := htr1 _ hm'
                      exact Ev.noConfusion hev
                    · obtain ⟨q, v, hev⟩ := htr2 _ hm'
                      exact Ev.noConfusion hev
                  · simp only [List.mem_singleton] at hm
                    exact Ev.noConfusion hm
                · intro hok
                  exact absurd hok (by simp)
              · rw [hF] at h
                dsimp only at h
                injection h with h'
                injection h' with htr hres
                subst htr hres
                constructor
                · rintro ⟨e, he⟩
                  exact absurd he (by simp)
                · intro _
                  refine ⟨tr1 ++ tr2, render_template template_text
                    (fun k => if k = "STARS" then some (toString stars)
                      else if k = "COMMITS" then some (toString commits)
                      else none), ?_, ?_⟩
                  · intro ev hev
                    rcases List.mem_append.mp hev with hm | hm
                    · exact htr1 _ hm
                    · exact htr2 _ hm
                  · simp [List.append_assoc]

/-- A canned API oracle for a fully successful run: one empty stars page,
one creation date, and per-window contribution counts. -/
def apiOk : Query → List (String × JVal) → HttpResult :=
  fun q _ =>
    match q with
    | .starsQ => .success (.obj [("data", .obj [("user", .obj
        [("repositories", .obj [("nodes", .arr []),
          ("pageInfo", .obj [("hasNextPage", .b false)])])])])])
    | .createdAtQ => .success (.obj [("data", .obj [("user", .obj
        [("createdAt", .s "2020-12-01T00:00:00Z")])])])
    | .contributionsQ => .success (.obj [("data", .obj [("user", .obj
        [("contributionsCollection", .obj
          [("totalCommitContributions", .i 5)])])])])

/-- Witness for C2: a failing run (transport error on the stars query)
writes nothing, and a fully successful run produces exactly
networks-then-read-then-render-then-write. -/
theorem main_write_discipline_witness :
    (Ev.writeFile "README.md" "out" ∉
      [Ev.network Query.starsQ [("login", JVal.s "u"), ("cursor", JVal.null)]])
    ∧ (∃ nets content,
      (∀ ev ∈ nets, ∃ q v, ev = Ev.network q v) ∧
      ([Ev.network Query.starsQ [("login", JVal.s "u"), ("cursor", JVal.null)],
        Ev.network Query.createdAtQ [("login", JVal.s "u")],
        Ev.network Query.contributionsQ [("login", JVal.s "u"),
          ("from", JVal.s "2020-12-01T00:00:00Z"),
          ("to", JVal.s "2021-01-01T00:00:00Z")],
        Ev.network Query.contributionsQ [("login", JVal.s "u"),
          ("from", JVal.s "2021-01-01T00:00:00Z"),
          ("to", JVal.s "2021-01-02T00:00:00Z")],
        Ev.readFile "TEMPLATE.md", Ev.render,
        Ev.writeFile "README.md" "S"] : List Ev) =
        nets ++ [Ev.readFile "TEMPLATE.md", Ev.render,
          Ev.writeFile "README.md" content]) :=
  ⟨(main_write_discipline (fun _ _ => .httpError 500 "boom")
      (fun _ => .error .typeError)
      (fun k => if k = "GITHUB_TOKEN" then some "t" else none)
      (fun _ => none) "TEMPLATE.md" "README.md" (some "u")
      ⟨2021, 1, 2, 0, 0, 0, 0⟩ 1
      [Ev.network Query.starsQ [("login", JVal.s "u"), ("cursor", JVal.null)]]
      (.error (.runtimeError "GraphQL request failed (500): boom"))
      rfl).1 ⟨_, rfl⟩ "README.md" "out",
   (main_write_discipline apiOk (fun _ => .ok ⟨2020, 12, 1, 0, 0, 0, 0⟩)
      (fun k => if k = "GITHUB_TOKEN" then some "t" else none)
      (fun _ => some "S") "TEMPLATE.md" "README.md" (some "u")
      ⟨2021, 1, 2, 0, 0, 0, 0⟩ 1
      [Ev.network Query.starsQ [("login", JVal.s "u"), ("cursor", JVal.null)],
        Ev.network Query.createdAtQ [("login", JVal.s "u")],
        Ev.network Query.contributionsQ [("login", JVal.s "u"),
          ("from", JVal.s "2020-12-01T00:00:00Z"),
          ("to", JVal.s "2021-01-01T00:00:00Z")],
        Ev.network Query.contributionsQ [("login", JVal.s "u"),
          ("from", JVal.s "2021-01-01T00:00:00Z"),
          ("to", JVal.s "2021-01-02T00:00:00Z")],
        Ev.readFile "TEMPLATE.md", Ev.render,
        Ev.writeFile "README.md" "S"]
      (.ok ()) rfl).2 rfl⟩
